import Mathlib

/-!
Verification of the registration/persistence core of the `tdd-training`
repository: the `RegistrationService.register` flow
(`src/backend/app/domain/registration_service.py`) and the
`SqlAlchemyUserRepository` persistence adapter
(`src/backend/app/infrastructure/user_repository.py`).

The storage engine is modelled as a list of rows with the uniqueness
constraints of the schema (primary-key `id`, unique `email`) enforced at
commit time; a constraint breach raises an integrity error and the session
is rolled back, leaving the stored state unchanged, exactly as in `save`.
Python `UUID` values are modelled as natural numbers together with an
explicit canonical string encoding (`str(uuid)` / `UUID(s)`), and
timestamps as natural numbers.
-/

/-! ## Canonical string encoding of identifiers

Models Python's `str(user.id)` on write and `UUID(user_model.id)` on read:
an injective canonical string form, never empty (Python's hyphenated UUID
form has fixed width 36, so even the all-zero identifier has a non-empty
string form; the terminating zero digit below plays that role). -/

/-- Little-endian decimal digits of `n`, with explicit structural fuel so
that the kernel can evaluate it. -/
def digitsFuel : Nat → Nat → List Nat
  | 0, _ => []
  | _ + 1, 0 => []
  | fuel + 1, n + 1 => (n + 1) % 10 :: digitsFuel fuel ((n + 1) / 10)

/-- Little-endian decimal digits of `n`. -/
def natDigits (n : Nat) : List Nat := digitsFuel n n

/-- Value of a little-endian decimal digit list. -/
def ofDigitsList : List Nat → Nat
  | [] => 0
  | d :: ds => d + 10 * ofDigitsList ds

/-- A decimal digit rendered as a character. -/
def digitToChar (d : Nat) : Char := Char.ofNat (48 + d)

/-- A decimal digit read back from a character. -/
def charToDigit (c : Char) : Nat := c.toNat - 48

/-- `str(uuid)`: the canonical string form of an identifier (a zero digit is
appended so that every identifier, including 0, has a non-empty form, as
with Python's fixed-width UUID rendering). -/
def uuidToString (n : Nat) : String := String.mk ((natDigits n ++ [0]).map digitToChar)

/-- `UUID(s)`: parse the canonical string form back to the identifier. -/
def uuidOfString (s : String) : Nat := ofDigitsList (s.data.map charToDigit)

theorem digitsFuel_ofDigitsList (fuel : Nat) :
    ∀ n : Nat, n ≤ fuel → ofDigitsList (digitsFuel fuel n) = n := by
  induction fuel with
  | zero =>
    intro n hn
    interval_cases n
    rfl
  | succ fuel ih =>
    intro n hn
    match n with
    | 0 => rfl
    | m + 1 =>
      have hlt : (m + 1) / 10 < m + 1 := Nat.div_lt_self (Nat.succ_pos m) (by norm_num)
      have hle : (m + 1) / 10 ≤ fuel := by omega
      simp only [digitsFuel, ofDigitsList, ih _ hle]
      omega

theorem ofDigitsList_natDigits (n : Nat) : ofDigitsList (natDigits n) = n :=
  digitsFuel_ofDigitsList n n (Nat.le_refl n)

theorem digitsFuel_lt (fuel : Nat) :
    ∀ n : Nat, ∀ d ∈ digitsFuel fuel n, d < 10 := by
  induction fuel with
  | zero =>
    intro n d hd
    simp [digitsFuel] at hd
  | succ fuel ih =>
    intro n d hd
    match n with
    | 0 => simp [digitsFuel] at hd
    | m + 1 =>
      simp only [digitsFuel, List.mem_cons] at hd
      rcases hd with h | h
      · omega
      · exact ih _ d h

theorem charToDigit_digitToChar {d : Nat} (hd : d < 10) :
    charToDigit (digitToChar d) = d := by
  interval_cases d <;> rfl

theorem ofDigitsList_append_zero (l : List Nat) :
    ofDigitsList (l ++ [0]) = ofDigitsList l := by
  induction l with
  | nil => rfl
  | cons d ds ih => simp [ofDigitsList, ih]

theorem uuidOfString_uuidToString (n : Nat) :
    uuidOfString (uuidToString n) = n := by
  unfold uuidOfString uuidToString
  have hdata : (String.mk ((natDigits n ++ [0]).map digitToChar)).data
      = (natDigits n ++ [0]).map digitToChar := rfl
  rw [hdata, List.map_map]
  have hmap : (natDigits n ++ [0]).map (charToDigit ∘ digitToChar) = natDigits n ++ [0] := by
    have hpt : ∀ d ∈ natDigits n ++ [0], (charToDigit ∘ digitToChar) d = id d := by
      intro d hd
      rcases List.mem_append.mp hd with h | h
      · exact charToDigit_digitToChar (digitsFuel_lt n n d h)
      · simp at h
        subst h
        rfl
    rw [List.map_congr_left hpt, List.map_id]
  rw [hmap, ofDigitsList_append_zero, ofDigitsList_natDigits]

theorem uuidToString_ne_empty (n : Nat) : uuidToString n ≠ "" := by
  intro h
  have hdata := congrArg String.data h
  simp [uuidToString] at hdata

/-! ## Data model -/

/-- Modelled from the spec: `app/domain/user.py` is not under `src/`. The
User domain entity (spec §3): `id` a unique identifier generated at
creation (random 128-bit identifier, modelled as a natural number),
`email` an opaque string key, `hashed_password` an opaque string,
`created_at` a timestamp set at construction (modelled as a natural
number), `is_active` a boolean defaulting to true at creation. -/
structure User where
  id : Nat
  email : String
  hashed_password : String
  created_at : Nat
  is_active : Bool
deriving Repr, DecidableEq

/-- Modelled from the spec: the User constructor
`User(email=..., hashed_password=...)` generates a fresh identifier
(`uuid4()`) and a creation timestamp and defaults `is_active` to true; the
two generated values appear as the explicit `freshId` and `now`
arguments. -/
def User.create (freshId now : Nat) (email hashed_pw : String) : User :=
  { id := freshId
    email := email
    hashed_password := hashed_pw
    created_at := now
    is_active := true }

/-- Modelled from the spec: `app/infrastructure/database.py` is not under
`src/`. The relational row (`UserModel`, spec §6): `id` a string-encoded
identifier and primary key, `email` a string with a unique constraint,
`hashed_password` a string, `created_at` a timestamp, `is_active` a
boolean. -/
structure UserModel where
  id : String
  email : String
  hashed_password : String
  created_at : Nat
  is_active : Bool
deriving Repr, DecidableEq

/-- Error raised by the Repository when the storage engine rejects a write
due to a constraint breach (`IntegrityError` caught and re-raised in
`save`). -/
inductive RepoError where
  | integrityViolation
deriving Repr, DecidableEq

/-- Modelled from the spec: `app/domain/user_repository.py` (the Repository
interface) is not under `src/`. A capability interface over a storage state
`σ` (spec §4.2): `save` persists a User and returns the reconstructed User
together with the new state (on error, the rolled-back state);
`find_by_id` and `find_by_email` are exact-match lookups returning an
explicit absent value on a miss. -/
structure UserRepository (σ : Type) where
  save : σ → User → Except RepoError User × σ
  find_by_id : σ → Nat → Option User
  find_by_email : σ → String → Option User

/-- Modelled from the spec: `app/domain/password.py` is not under `src/`.
The hashing collaborator (spec §6): a pure function string → string whose
output is an opaque string, never the plaintext password; modelled as an
injective tagging function. -/
def hash_password (plaintext : String) : String := "$hashed$" ++ plaintext

theorem hash_password_ne_plaintext (p : String) : hash_password p ≠ p := by
  intro h
  have hlen := congrArg String.length h
  rw [hash_password, String.length_append] at hlen
  have h8 : ("$hashed$" : String).length = 8 := rfl
  omega

/-! ## SqlAlchemyUserRepository

Embeds `src/backend/app/infrastructure/user_repository.py`. The database
is a list of rows; `save` converts the domain User to a row
(`id=str(user.id)` and the remaining fields copied), commits it, and
returns `_to_domain_user` of the committed row; if the engine rejects the
write for a primary-key or unique-email breach, the session is rolled back
and the integrity error propagates. -/

namespace SqlAlchemyUserRepository

/-- The row built in `save`: `UserModel(id=str(user.id), email=..., ...)`. -/
def to_row (user : User) : UserModel :=
  { id := uuidToString user.id
    email := user.email
    hashed_password := user.hashed_password
    created_at := user.created_at
    is_active := user.is_active }

/-- `_to_domain_user`: convert a row back to a domain User
(`id=UUID(user_model.id)` and the remaining fields copied). -/
def to_domain_user (m : UserModel) : User :=
  { id := uuidOfString m.id
    email := m.email
    hashed_password := m.hashed_password
    created_at := m.created_at
    is_active := m.is_active }

/-- The storage engine's constraint check at commit: the schema declares
`id` as primary key and `email` unique (spec §6). -/
def violatesConstraint (db : List UserModel) (row : UserModel) : Bool :=
  db.any (fun r => r.id == row.id || r.email == row.email)

/-- `save`: add the row and commit; on an integrity violation roll back
(state unchanged) and propagate the error; on success return the domain
User reconstructed from the committed row. -/
def save (db : List UserModel) (user : User) : Except RepoError User × List UserModel :=
  let row := to_row user
  if violatesConstraint db row then
    (Except.error RepoError.integrityViolation, db)
  else
    (Except.ok (to_domain_user row), db ++ [row])

/-- `find_by_id`: first row whose stored id equals `str(id)`, converted to
a domain User; `none` on a miss. -/
def find_by_id (db : List UserModel) (id : Nat) : Option User :=
  (db.find? (fun r => r.id == uuidToString id)).map to_domain_user

/-- `find_by_email`: first row with that email, converted to a domain
User; `none` on a miss. -/
def find_by_email (db : List UserModel) (email : String) : Option User :=
  (db.find? (fun r => r.email == email)).map to_domain_user

end SqlAlchemyUserRepository

/-- The `SqlAlchemyUserRepository` packaged behind the Repository
interface, over the list-of-rows storage state. -/
def sqlRepository : UserRepository (List UserModel) :=
  { save := SqlAlchemyUserRepository.save
    find_by_id := SqlAlchemyUserRepository.find_by_id
    find_by_email := SqlAlchemyUserRepository.find_by_email }

/-! ## RegistrationService

Embeds `src/backend/app/domain/registration_service.py`. The service holds
an injected repository and an injected hasher (defaulting to
`hash_password`). The calls to `uuid4()` and to the clock inside the User
constructor are modelled by the explicit `freshId` and `now` arguments. -/

/-- Errors `register` can surface: the `ValueError` carrying the offending
email raised on a duplicate, or a Repository error propagating through. -/
inductive RegisterError where
  | duplicateEmail (email : String)
  | repoError (e : RepoError)
deriving Repr, DecidableEq

/-- The service with its injected collaborators (`repository`, `hasher`). -/
structure RegistrationService (σ : Type) where
  repository : UserRepository σ
  hasher : String → String

/-- `register`: look up the email; if a user exists, raise the duplicate
error; otherwise hash the password, construct the User (fresh id, given
email, hashed password, current time, active), save it, and return the
constructed User (the value returned by `save` is discarded by the
source). -/
def RegistrationService.register {σ : Type} (svc : RegistrationService σ)
    (freshId now : Nat) (s : σ) (email password : String) :
    Except RegisterError User × σ :=
  match svc.repository.find_by_email s email with
  | some _ => (Except.error (RegisterError.duplicateEmail email), s)
  | none =>
    let hashed := svc.hasher password
    let user : User := User.create freshId now email hashed
    match svc.repository.save s user with
    | (Except.ok _, s') => (Except.ok user, s')
    | (Except.error e, s') => (Except.error (RegisterError.repoError e), s')

/-- The service as assembled in the repository: the SQLAlchemy repository
with an injected hasher. -/
def sqlService (hasher : String → String) : RegistrationService (List UserModel) :=
  { repository := sqlRepository, hasher := hasher }

/-- States of the store reachable from the empty store by `register`
operations of the assembled service. -/
inductive Reachable (hasher : String → String) : List UserModel → Prop
  | empty : Reachable hasher []
  | step {db db' : List UserModel} {freshId now : Nat} {email password : String}
      {res : Except RegisterError User} :
      Reachable hasher db →
      (sqlService hasher).register freshId now db email password = (res, db') →
      Reachable hasher db'

/-! ## Adapter laws -/

namespace SqlAlchemyUserRepository

theorem to_domain_user_to_row (u : User) : to_domain_user (to_row u) = u := by
  simp [to_domain_user, to_row, uuidOfString_uuidToString]

theorem violatesConstraint_eq_false {db : List UserModel} {row : UserModel} :
    violatesConstraint db row = false ↔ ∀ r ∈ db, r.id ≠ row.id ∧ r.email ≠ row.email := by
  simp [violatesConstraint, List.any_eq_false, not_or]

theorem save_of_violates {db : List UserModel} {u : User}
    (h : violatesConstraint db (to_row u) = true) :
    save db u = (Except.error RepoError.integrityViolation, db) := by
  simp [save, h]

theorem save_of_not_violates {db : List UserModel} {u : User}
    (h : violatesConstraint db (to_row u) = false) :
    save db u = (Except.ok u, db ++ [to_row u]) := by
  simp [save, h, to_domain_user_to_row]

theorem save_ok_elim {db db' : List UserModel} {u saved : User}
    (h : save db u = (Except.ok saved, db')) :
    violatesConstraint db (to_row u) = false ∧ saved = u ∧ db' = db ++ [to_row u] := by
  cases hv : violatesConstraint db (to_row u) with
  | true =>
    rw [save_of_violates hv] at h
    exact absurd (congrArg Prod.fst h) (by simp)
  | false =>
    rw [save_of_not_violates hv] at h
    have h1 := congrArg Prod.fst h
    have h2 := congrArg Prod.snd h
    simp at h1 h2
    exact ⟨rfl, h1.symm, h2.symm⟩

theorem find_by_email_eq_none {db : List UserModel} {email : String} :
    find_by_email db email = none ↔ ∀ r ∈ db, r.email ≠ email := by
  simp [find_by_email, List.find?_eq_none]

theorem find_by_id_eq_none {db : List UserModel} {id : Nat} :
    find_by_id db id = none ↔ ∀ r ∈ db, r.id ≠ uuidToString id := by
  simp [find_by_id, List.find?_eq_none]

end SqlAlchemyUserRepository

/-! ## Register reduction lemmas -/

theorem register_sql_found {hasher : String → String} {freshId now : Nat}
    {db : List UserModel} {email password : String} {u : User}
    (h : SqlAlchemyUserRepository.find_by_email db email = some u) :
    (sqlService hasher).register freshId now db email password
      = (Except.error (RegisterError.duplicateEmail email), db) := by
  simp [RegistrationService.register, sqlService, sqlRepository, h]

theorem register_sql_ok {hasher : String → String} {freshId now : Nat}
    {db : List UserModel} {email password : String}
    (hfind : SqlAlchemyUserRepository.find_by_email db email = none)
    (hv : SqlAlchemyUserRepository.violatesConstraint db
        (SqlAlchemyUserRepository.to_row (User.create freshId now email (hasher password)))
      = false) :
    (sqlService hasher).register freshId now db email password
      = (Except.ok (User.create freshId now email (hasher password)),
         db ++ [SqlAlchemyUserRepository.to_row (User.create freshId now email (hasher password))]) := by
  simp [RegistrationService.register, sqlService, sqlRepository, hfind,
    SqlAlchemyUserRepository.save_of_not_violates hv]

theorem register_sql_integrity {hasher : String → String} {freshId now : Nat}
    {db : List UserModel} {email password : String}
    (hfind : SqlAlchemyUserRepository.find_by_email db email = none)
    (hv : SqlAlchemyUserRepository.violatesConstraint db
        (SqlAlchemyUserRepository.to_row (User.create freshId now email (hasher password)))
      = true) :
    (sqlService hasher).register freshId now db email password
      = (Except.error (RegisterError.repoError RepoError.integrityViolation), db) := by
  simp [RegistrationService.register, sqlService, sqlRepository, hfind,
    SqlAlchemyUserRepository.save_of_violates hv]

theorem register_sql_state_shape {hasher : String → String} {freshId now : Nat}
    {db db' : List UserModel} {email password : String}
    {res : Except RegisterError User}
    (h : (sqlService hasher).register freshId now db email password = (res, db')) :
    db' = db
    ∨ ∃ u : User,
        SqlAlchemyUserRepository.violatesConstraint db (SqlAlchemyUserRepository.to_row u) = false
        ∧ db' = db ++ [SqlAlchemyUserRepository.to_row u] := by
  cases hfind : SqlAlchemyUserRepository.find_by_email db email with
  | some u =>
    rw [register_sql_found hfind] at h
    exact Or.inl (congrArg Prod.snd h).symm
  | none =>
    cases hv : SqlAlchemyUserRepository.violatesConstraint db
        (SqlAlchemyUserRepository.to_row (User.create freshId now email (hasher password))) with
    | true =>
      rw [register_sql_integrity hfind hv] at h
      exact Or.inl (congrArg Prod.snd h).symm
    | false =>
      rw [register_sql_ok hfind hv] at h
      exact Or.inr ⟨User.create freshId now email (hasher password), hv,
        (congrArg Prod.snd h).symm⟩

deriving instance DecidableEq for Except

/-! ## Sample values for concrete evaluations -/

/-- A sample registered user. -/
def userA : User := User.create 5 0 "a@example.com" (hash_password "secret")

/-- The row persisted for `userA`. -/
def rowA : UserModel := SqlAlchemyUserRepository.to_row userA

/-! ## Claims -/

/-- Claim C1: for every (email, password) such that the store already holds a
user with that email, `register` fails with the duplicate-email error carrying
the conflicting email and performs zero writes: the stored state comes back
unchanged. -/
theorem register_duplicate_email_fails_without_write
    (hasher : String → String) (freshId now : Nat) (db : List UserModel)
    (email password : String) (u : User)
    (h : SqlAlchemyUserRepository.find_by_email db email = some u) :
    (sqlService hasher).register freshId now db email password
      = (Except.error (RegisterError.duplicateEmail email), db) :=
  register_sql_found h

/-- Witness for C1 at a concrete store holding `rowA`. -/
theorem register_duplicate_email_fails_without_write_witness :
    SqlAlchemyUserRepository.find_by_email [rowA] "a@example.com" = some userA
    ∧ (sqlService hash_password).register 7 1 [rowA] "a@example.com" "pw"
      = (Except.error (RegisterError.duplicateEmail "a@example.com"), [rowA]) :=
  ⟨by decide,
   register_duplicate_email_fails_without_write hash_password 7 1 [rowA]
     "a@example.com" "pw" userA (by decide)⟩

/-- Claim C2: for every pair of non-empty strings (email, password) such that no
stored user has that email (and the freshly generated identifier does not
collide with a stored row, which the spec assumes of the random 128-bit
identifier), `register` succeeds and returns a User whose email equals the
input, whose hashed password differs from the plaintext, and whose identifier
has a non-empty string form; and exactly one durable write occurs: the new row
is appended and nothing else changes. -/
theorem register_fresh_email_succeeds
    (freshId now : Nat) (db : List UserModel) (email password : String)
    (hemail : email ≠ "") (hpassword : password ≠ "")
    (hfind : SqlAlchemyUserRepository.find_by_email db email = none)
    (hfresh : ∀ r ∈ db, r.id ≠ uuidToString freshId) :
    (sqlService hash_password).register freshId now db email password
      = (Except.ok (User.create freshId now email (hash_password password)),
         db ++ [SqlAlchemyUserRepository.to_row (User.create freshId now email (hash_password password))])
    ∧ (User.create freshId now email (hash_password password)).email = email
    ∧ (User.create freshId now email (hash_password password)).hashed_password ≠ password
    ∧ uuidToString (User.create freshId now email (hash_password password)).id ≠ "" := by
  have hv : SqlAlchemyUserRepository.violatesConstraint db
      (SqlAlchemyUserRepository.to_row (User.create freshId now email (hash_password password)))
      = false := by
    rw [SqlAlchemyUserRepository.violatesConstraint_eq_false]
    intro r hr
    exact ⟨hfresh r hr, SqlAlchemyUserRepository.find_by_email_eq_none.mp hfind r hr⟩
  exact ⟨register_sql_ok hfind hv, rfl, hash_password_ne_plaintext password,
    uuidToString_ne_empty freshId⟩

/-- Witness for C2 at a concrete fresh registration on the empty store. -/
theorem register_fresh_email_succeeds_witness :
    ("b@example.com" ≠ "" ∧ "pw" ≠ ""
      ∧ SqlAlchemyUserRepository.find_by_email [] "b@example.com" = none)
    ∧ ((sqlService hash_password).register 3 2 [] "b@example.com" "pw"
        = (Except.ok (User.create 3 2 "b@example.com" (hash_password "pw")),
           [] ++ [SqlAlchemyUserRepository.to_row (User.create 3 2 "b@example.com" (hash_password "pw"))])
      ∧ (User.create 3 2 "b@example.com" (hash_password "pw")).email = "b@example.com"
      ∧ (User.create 3 2 "b@example.com" (hash_password "pw")).hashed_password ≠ "pw"
      ∧ uuidToString (User.create 3 2 "b@example.com" (hash_password "pw")).id ≠ "") :=
  ⟨⟨by decide, by decide, by decide⟩,
   register_fresh_email_succeeds 3 2 [] "b@example.com" "pw" (by decide) (by decide)
     (by decide) (by simp)⟩

/-- A repository whose `save` returns a storage-normalized User (the return
contract of spec §4.2 allows storage-assigned or storage-normalized fields to
be reflected in the returned value); injectable into the service exactly as
the tests inject substitute repositories. -/
def normalizingRepository : UserRepository (List UserModel) :=
  { save := fun db user =>
      (Except.ok { SqlAlchemyUserRepository.to_domain_user
          (SqlAlchemyUserRepository.to_row user) with
            email := String.append "normalized:" user.email },
       db ++ [SqlAlchemyUserRepository.to_row user])
    find_by_id := SqlAlchemyUserRepository.find_by_id
    find_by_email := SqlAlchemyUserRepository.find_by_email }

/-- Claim C3 counterexample: with a repository whose `save` returns a
storage-normalized User — permitted by the Repository return contract —
`register` at this concrete input returns the in-memory constructed User,
which differs from the value `save` returned, so `register` does not return
the persisted User as returned by `save`. -/
theorem register_ignores_save_return_counterexample :
    ((RegistrationService.mk normalizingRepository hash_password).register
        1 0 [] "test@example.com" "pw").1
      = Except.ok (User.create 1 0 "test@example.com" (hash_password "pw"))
    ∧ (normalizingRepository.save []
        (User.create 1 0 "test@example.com" (hash_password "pw"))).1
      ≠ Except.ok (User.create 1 0 "test@example.com" (hash_password "pw")) := by
  constructor
  · decide
  · decide

/-- Claim C3 (amended): on success `register` returns the User constructed in
memory before persistence — the value returned by `save` is discarded by the
source — and for the SQLAlchemy repository this coincides field-for-field with
the persisted User that `save` returned. -/
theorem register_returns_constructed_user
    (hasher : String → String) (freshId now : Nat) (db db' : List UserModel)
    (email password : String) (saved : User)
    (hfind : SqlAlchemyUserRepository.find_by_email db email = none)
    (hsave : SqlAlchemyUserRepository.save db (User.create freshId now email (hasher password))
      = (Except.ok saved, db')) :
    (sqlService hasher).register freshId now db email password
      = (Except.ok (User.create freshId now email (hasher password)), db')
    ∧ saved = User.create freshId now email (hasher password) := by
  obtain ⟨hv, hsaved, hdb⟩ := SqlAlchemyUserRepository.save_ok_elim hsave
  subst hdb
  exact ⟨register_sql_ok hfind hv, hsaved⟩

/-- Witness for the amended C3 at a concrete fresh registration. -/
theorem register_returns_constructed_user_witness :
    (SqlAlchemyUserRepository.find_by_email [] "c@example.com" = none
      ∧ SqlAlchemyUserRepository.save []
          (User.create 4 9 "c@example.com" (hash_password "pw"))
        = (Except.ok (User.create 4 9 "c@example.com" (hash_password "pw")),
           [SqlAlchemyUserRepository.to_row (User.create 4 9 "c@example.com" (hash_password "pw"))]))
    ∧ ((sqlService hash_password).register 4 9 [] "c@example.com" "pw"
        = (Except.ok (User.create 4 9 "c@example.com" (hash_password "pw")),
           [SqlAlchemyUserRepository.to_row (User.create 4 9 "c@example.com" (hash_password "pw"))])
      ∧ User.create 4 9 "c@example.com" (hash_password "pw")
          = User.create 4 9 "c@example.com" (hash_password "pw")) :=
  ⟨⟨by decide, by decide⟩,
   register_returns_constructed_user hash_password 4 9 []
     [SqlAlchemyUserRepository.to_row (User.create 4 9 "c@example.com" (hash_password "pw"))]
     "c@example.com" "pw" (User.create 4 9 "c@example.com" (hash_password "pw"))
     (by decide) (by decide)⟩

/-- Claim C4: in every state reachable by any sequence of `register` operations
starting from the empty store, at most one stored row exists per distinct
email value. -/
theorem reachable_states_have_unique_emails
    (hasher : String → String) (db : List UserModel) (h : Reachable hasher db) :
    db.Pairwise (fun r₁ r₂ => r₁.email ≠ r₂.email) := by
  induction h with
  | empty => exact List.Pairwise.nil
  | step hreach hstep ih =>
    rcases register_sql_state_shape hstep with hsame | ⟨u, hv, happ⟩
    · exact hsame ▸ ih
    · subst happ
      rw [List.pairwise_append]
      refine ⟨ih, List.pairwise_singleton _ _, ?_⟩
      intro a ha b hb
      simp only [List.mem_singleton] at hb
      subst hb
      exact (SqlAlchemyUserRepository.violatesConstraint_eq_false.mp hv a ha).2

/-- Witness for C4 at the store reached by one successful registration. -/
theorem reachable_states_have_unique_emails_witness :
    List.Pairwise (fun r₁ r₂ : UserModel => r₁.email ≠ r₂.email) [rowA] :=
  reachable_states_have_unique_emails hash_password [rowA]
    (@Reachable.step hash_password [] [rowA] 5 0 "a@example.com" "secret"
      (Except.ok userA) Reachable.empty (by decide))

/-- Claim C5: for every User successfully saved, `find_by_id` at the returned
User's id yields a User whose every field equals the returned User's fields
(structural equality of the two records). -/
theorem save_then_find_by_id_roundtrip
    (db db' : List UserModel) (u saved : User)
    (h : SqlAlchemyUserRepository.save db u = (Except.ok saved, db')) :
    SqlAlchemyUserRepository.find_by_id db' saved.id = some saved := by
  obtain ⟨hv, hsaved, hdb⟩ := SqlAlchemyUserRepository.save_ok_elim h
  subst hsaved
  subst hdb
  have hnone : db.find? (fun r => r.id == uuidToString saved.id) = none := by
    rw [List.find?_eq_none]
    intro r hr
    simp only [beq_iff_eq]
    exact (SqlAlchemyUserRepository.violatesConstraint_eq_false.mp hv r hr).1
  unfold SqlAlchemyUserRepository.find_by_id
  rw [List.find?_append, hnone]
  simp [SqlAlchemyUserRepository.to_row, SqlAlchemyUserRepository.to_domain_user,
    uuidOfString_uuidToString]

/-- Witness for C5 at a concrete save on the empty store. -/
theorem save_then_find_by_id_roundtrip_witness :
    SqlAlchemyUserRepository.save [] userA = (Except.ok userA, [rowA])
    ∧ SqlAlchemyUserRepository.find_by_id [rowA] userA.id = some userA :=
  ⟨by decide,
   save_then_find_by_id_roundtrip [] [rowA] userA userA (by decide)⟩

/-- Claim C6: for every User successfully saved, `find_by_email` at the
returned User's email yields a User whose id equals the returned User's id. -/
theorem save_then_find_by_email_roundtrip
    (db db' : List UserModel) (u saved : User)
    (h : SqlAlchemyUserRepository.save db u = (Except.ok saved, db')) :
    ∃ w : User, SqlAlchemyUserRepository.find_by_email db' saved.email = some w
      ∧ w.id = saved.id := by
  obtain ⟨hv, hsaved, hdb⟩ := SqlAlchemyUserRepository.save_ok_elim h
  subst hsaved
  subst hdb
  have hnone : db.find? (fun r => r.email == saved.email) = none := by
    rw [List.find?_eq_none]
    intro r hr
    simp only [beq_iff_eq]
    exact (SqlAlchemyUserRepository.violatesConstraint_eq_false.mp hv r hr).2
  refine ⟨saved, ?_, rfl⟩
  unfold SqlAlchemyUserRepository.find_by_email
  rw [List.find?_append, hnone]
  simp [SqlAlchemyUserRepository.to_row, SqlAlchemyUserRepository.to_domain_user,
    uuidOfString_uuidToString]

/-- Witness for C6 at a concrete save on the empty store. -/
theorem save_then_find_by_email_roundtrip_witness :
    SqlAlchemyUserRepository.save [] userA = (Except.ok userA, [rowA])
    ∧ ∃ w : User, SqlAlchemyUserRepository.find_by_email [rowA] userA.email = some w
      ∧ w.id = userA.id :=
  ⟨by decide,
   save_then_find_by_email_roundtrip [] [rowA] userA userA (by decide)⟩

/-- Claim C7: for every identifier and every email that no stored row carries,
`find_by_id` and `find_by_email` return the explicit absent value `none`
(both lookups are total functions of the store: no error is ever raised). -/
theorem find_miss_returns_absent
    (db : List UserModel) (id : Nat) (email : String)
    (hid : ∀ r ∈ db, r.id ≠ uuidToString id)
    (hemail : ∀ r ∈ db, r.email ≠ email) :
    SqlAlchemyUserRepository.find_by_id db id = none
    ∧ SqlAlchemyUserRepository.find_by_email db email = none :=
  ⟨SqlAlchemyUserRepository.find_by_id_eq_none.mpr hid,
   SqlAlchemyUserRepository.find_by_email_eq_none.mpr hemail⟩

/-- Witness for C7 at a concrete store holding only `rowA`. -/
theorem find_miss_returns_absent_witness :
    ((∀ r ∈ [rowA], r.id ≠ uuidToString 7)
      ∧ (∀ r ∈ [rowA], r.email ≠ "zz@example.com"))
    ∧ SqlAlchemyUserRepository.find_by_id [rowA] 7 = none
    ∧ SqlAlchemyUserRepository.find_by_email [rowA] "zz@example.com" = none :=
  ⟨⟨by decide, by decide⟩,
   find_miss_returns_absent [rowA] 7 "zz@example.com" (by decide) (by decide)⟩

/-- Claim C8: when the storage engine rejects the write with an integrity
violation, `save` rolls back — the stored state is returned unchanged, so no
partial record is visible to subsequent reads — and propagates the
distinguishable integrity error, which passes through `register` to its
caller with the same payload: the service neither catches nor translates it
(only the duplicate pre-check produces the service's own error). -/
theorem integrity_violation_rolls_back_and_propagates
    (hasher : String → String) (freshId now : Nat) (db : List UserModel)
    (email password : String)
    (hfind : SqlAlchemyUserRepository.find_by_email db email = none)
    (hv : SqlAlchemyUserRepository.violatesConstraint db
        (SqlAlchemyUserRepository.to_row (User.create freshId now email (hasher password)))
      = true) :
    SqlAlchemyUserRepository.save db (User.create freshId now email (hasher password))
      = (Except.error RepoError.integrityViolation, db)
    ∧ (sqlService hasher).register freshId now db email password
      = (Except.error (RegisterError.repoError RepoError.integrityViolation), db) :=
  ⟨SqlAlchemyUserRepository.save_of_violates hv, register_sql_integrity hfind hv⟩

/-- Witness for C8: the fresh identifier collides with the stored row's
primary key while the email passes the duplicate pre-check. -/
theorem integrity_violation_rolls_back_and_propagates_witness :
    (SqlAlchemyUserRepository.find_by_email [rowA] "c@example.com" = none
      ∧ SqlAlchemyUserRepository.violatesConstraint [rowA]
          (SqlAlchemyUserRepository.to_row (User.create 5 3 "c@example.com" (hash_password "pw")))
        = true)
    ∧ SqlAlchemyUserRepository.save [rowA]
        (User.create 5 3 "c@example.com" (hash_password "pw"))
      = (Except.error RepoError.integrityViolation, [rowA])
    ∧ (sqlService hash_password).register 5 3 [rowA] "c@example.com" "pw"
      = (Except.error (RegisterError.repoError RepoError.integrityViolation), [rowA]) :=
  ⟨⟨by decide, by decide⟩,
   integrity_violation_rolls_back_and_propagates hash_password 5 3 [rowA]
     "c@example.com" "pw" (by decide) (by decide)⟩

/-- Claim C9: the User returned by a successful `save` keeps the identifier the
caller assigned before the Repository was invoked; the row stores it in the
canonical string form, which parses back to the same identifier on read, and
storage appends exactly that row, reassigning nothing. -/
theorem save_preserves_assigned_id
    (db db' : List UserModel) (u saved : User)
    (h : SqlAlchemyUserRepository.save db u = (Except.ok saved, db')) :
    saved.id = u.id
    ∧ (SqlAlchemyUserRepository.to_row u).id = uuidToString u.id
    ∧ uuidOfString (SqlAlchemyUserRepository.to_row u).id = u.id
    ∧ db' = db ++ [SqlAlchemyUserRepository.to_row u] := by
  obtain ⟨hv, hsaved, hdb⟩ := SqlAlchemyUserRepository.save_ok_elim h
  refine ⟨?_, rfl, uuidOfString_uuidToString u.id, hdb⟩
  rw [hsaved]

/-- Witness for C9 at a concrete save on the empty store. -/
theorem save_preserves_assigned_id_witness :
    SqlAlchemyUserRepository.save [] userA = (Except.ok userA, [rowA])
    ∧ userA.id = userA.id
    ∧ (SqlAlchemyUserRepository.to_row userA).id = uuidToString userA.id
    ∧ uuidOfString (SqlAlchemyUserRepository.to_row userA).id = userA.id
    ∧ [rowA] = [] ++ [SqlAlchemyUserRepository.to_row userA] :=
  ⟨by decide,
   save_preserves_assigned_id [] [rowA] userA userA (by decide)⟩

/-- Claim C10: `register` does not enforce the spec's non-empty input
constraint: with the empty-string email (and no stored user carrying that
email, the fresh identifier not colliding), registration succeeds and the
persisted row carries the empty email field instead of the input being
rejected. -/
theorem register_accepts_empty_email
    (freshId now : Nat) (db : List UserModel) (password : String)
    (hfind : SqlAlchemyUserRepository.find_by_email db "" = none)
    (hfresh : ∀ r ∈ db, r.id ≠ uuidToString freshId) :
    (sqlService hash_password).register freshId now db "" password
      = (Except.ok (User.create freshId now "" (hash_password password)),
         db ++ [SqlAlchemyUserRepository.to_row (User.create freshId now "" (hash_password password))])
    ∧ (User.create freshId now "" (hash_password password)).email = ""
    ∧ (SqlAlchemyUserRepository.to_row (User.create freshId now "" (hash_password password))).email
      = "" := by
  have hv : SqlAlchemyUserRepository.violatesConstraint db
      (SqlAlchemyUserRepository.to_row (User.create freshId now "" (hash_password password)))
      = false := by
    rw [SqlAlchemyUserRepository.violatesConstraint_eq_false]
    intro r hr
    exact ⟨hfresh r hr, SqlAlchemyUserRepository.find_by_email_eq_none.mp hfind r hr⟩
  exact ⟨register_sql_ok hfind hv, rfl, rfl⟩

/-- Witness for C10 at the empty store. -/
theorem register_accepts_empty_email_witness :
    SqlAlchemyUserRepository.find_by_email [] "" = none
    ∧ (sqlService hash_password).register 6 4 [] "" "pw"
      = (Except.ok (User.create 6 4 "" (hash_password "pw")),
         [] ++ [SqlAlchemyUserRepository.to_row (User.create 6 4 "" (hash_password "pw"))])
    ∧ (User.create 6 4 "" (hash_password "pw")).email = ""
    ∧ (SqlAlchemyUserRepository.to_row (User.create 6 4 "" (hash_password "pw"))).email = "" :=
  ⟨by decide,
   register_accepts_empty_email 6 4 [] "pw" (by decide) (by simp)⟩
